import Mathlib

set_option autoImplicit false
set_option maxHeartbeats 1000000
set_option maxRecDepth 100000

/-! Shallow embedding of the backend interface layer (r2_api.rs) of the
radius symbolic-execution engine, together with the babyre example hook
(examples/babyre/src/main.rs).

Conventions: Rust strings are modelled as `List Char` (byte-for-byte
identical to the Rust byte view for the ASCII data these functions
exchange); command strings built with format are Lean `String`s; machine
integers are `Nat` with explicit bounds; a Rust panic (a failed `unwrap`
or an out-of-range string slice) is modelled by `none` for pure functions
and by `Outcome.panic` for backend operations; `serde_json::from_str` and
the `R2Pipe` channel are external collaborators and enter as explicit
function parameters (`parseInfo`, `parseCC`, `backend`). -/

/-- Result of one backend operation: a normal return, an `Err` propagated
to the caller (the `R2Result` error case), or a Rust panic. -/
inductive Outcome (α : Type) where
  | ok (a : α)
  | err (e : String)
  | panic
  deriving DecidableEq

/-- Digit test of Rust `from_str_radix` (via `char::to_digit`): accepts
`0`-`9`, `a`-`z` and `A`-`Z` whose value is below the radix. -/
def charToDigit (c : Char) (radix : Nat) : Option Nat :=
  let v : Option Nat :=
    if '0' ≤ c ∧ c ≤ '9' then some (c.toNat - '0'.toNat)
    else if 'a' ≤ c ∧ c ≤ 'z' then some (c.toNat - 'a'.toNat + 10)
    else if 'A' ≤ c ∧ c ≤ 'Z' then some (c.toNat - 'A'.toNat + 10)
    else none
  match v with
  | some d => if d < radix then some d else none
  | none => none

/-- Rust `uN::from_str_radix` for an unsigned integer type with maximum
value `maxVal`: an optional leading plus sign, then a nonempty run of
digits of the radix, folded most-significant first with a checked
multiply-add (overflow past `maxVal` is an error, hence `none`). A
leading minus sign is not accepted for unsigned types. -/
def fromStrRadix (radix maxVal : Nat) (s : List Char) : Option Nat :=
  let ds := if s.headD ' ' = '+' then s.tail else s
  if ds.isEmpty then none
  else
    ds.foldl (fun acc c =>
      match acc, charToDigit c radix with
      | some a, some d => if a * radix + d ≤ maxVal then some (a * radix + d) else none
      | _, _ => none) (some 0)

/-- Rust string slice `&s[a..b]`: defined when `a ≤ b ≤ s.len()`,
otherwise the access panics (`none`). -/
def strSlice (s : List Char) (a b : Nat) : Option (List Char) :=
  if a ≤ b ∧ b ≤ s.length then some ((s.drop a).take (b - a)) else none

/-- Maximum value of a Rust u64. -/
def U64_MAX : Nat := 2 ^ 64 - 1

/-- Maximum value of a Rust u8. -/
def U8_MAX : Nat := 255

/-- hex_encode from r2_api.rs: each u8 byte is rendered with format
`{:02x}`, i.e. exactly two lowercase hexadecimal digits for a value
below 256, and the pieces are concatenated. -/
def hex_encode : List Nat → List Char
  | [] => []
  | d :: rest => Nat.digitChar (d / 16) :: Nat.digitChar (d % 16) :: hex_encode rest

/-- hex_decode from r2_api.rs: for i in 0..len/2 the two-character slice
at 2i is parsed with `u8::from_str_radix(_, 16)` and unwrapped, so a
failing pair panics (`none`) and a trailing unpaired character is never
consumed. -/
def hex_decode : List Char → Option (List Nat)
  | c1 :: c2 :: rest =>
    match fromStrRadix 16 U8_MAX [c1, c2], hex_decode rest with
    | some v, some vs => some (v :: vs)
    | _, _ => none
  | _ => some []

/-- The two-character chunks hex_decode consumes (the slices at indices
2i for i < len/2); a trailing unpaired character appears in none of them. -/
def pairsOf : List Char → List (List Char)
  | c1 :: c2 :: rest => [c1, c2] :: pairsOf rest
  | _ => []

/-- Endian from r2_api.rs. -/
inductive Endian where
  | little
  | big
  | mixed
  | unknown
  deriving DecidableEq

/-- Endian::from_string from r2_api.rs. -/
def Endian.from_string (e : String) : Endian :=
  if e = "little" then Endian.little
  else if e = "big" then Endian.big
  else if e = "mixed" then Endian.mixed
  else Endian.unknown

/-- r2_result from r2_api.rs: any deserialization error is collapsed to
the fixed error string. -/
def r2_result {ε α : Type} : Except ε α → Except String α
  | Except.ok res => Except.ok res
  | Except.error _ => Except.error "Deserialization error"

/-- CallingConvention from r2_api.rs. -/
structure CallingConvention where
  ret : String
  args : List String
  deriving DecidableEq

/-- CoreInfo from r2_api.rs. -/
structure CoreInfo where
  file : String
  size : Nat
  mode : String
  format : String
  deriving DecidableEq

/-- BinInfo from r2_api.rs. -/
structure BinInfo where
  arch : String
  bintype : String
  bits : Nat
  canary : Bool
  endian : String
  os : String
  nx : Bool
  deriving DecidableEq

/-- Information from r2_api.rs. -/
structure Information where
  core : CoreInfo
  bin : BinInfo
  deriving DecidableEq

/-- The command/response channel to the single external r2 process: a
command string is answered with a response string, or the channel fails
with an error (the error case of `R2Pipe::cmd`). -/
def Backend : Type := String → Except String (List Char)

/-- R2Api::get_info from r2_api.rs: on a cache miss the `ij` command is
issued, its reply is deserialized into `Option Information` and the serde
result is unwrapped (panic on a parse failure); the stored field is then
unwrapped again (panic when the reply deserialized to JSON null). On a
cache hit no command is issued and a clone of the cached value is
returned. The triple is (returned value, new cached info field, commands
issued). -/
def get_info (backend : Backend)
    (parseInfo : List Char → Except String (Option Information))
    (cached : Option Information) :
    Outcome Information × Option Information × List String :=
  match cached with
  | some i => (Outcome.ok i, some i, [])
  | none =>
    match backend "ij" with
    | Except.error e => (Outcome.err e, none, ["ij"])
    | Except.ok json =>
      match parseInfo json with
      | Except.error _ => (Outcome.panic, none, ["ij"])
      | Except.ok none => (Outcome.panic, none, ["ij"])
      | Except.ok (some i) => (Outcome.ok i, some i, ["ij"])

/-- R2Api::get_cc from r2_api.rs: issues `af @ pc; afcrj @ pc` and runs
the serde reply through r2_result. -/
def get_cc (backend : Backend)
    (parseCC : List Char → Except String CallingConvention) (pc : Nat) :
    Outcome CallingConvention × List String :=
  let c := "af @ " ++ toString pc ++ "; afcrj @ " ++ toString pc
  match backend c with
  | Except.error e => (Outcome.err e, [c])
  | Except.ok json =>
    match r2_result (parseCC json) with
    | Except.ok cc => (Outcome.ok cc, [c])
    | Except.error e => (Outcome.err e, [c])

/-- R2Api::get_syscall_cc from r2_api.rs: unwraps the cached info (panic
when absent); for x86 with 32 bits it returns the hard-coded convention
without touching the backend, otherwise it defers to get_cc. -/
def get_syscall_cc (backend : Backend)
    (parseCC : List Char → Except String CallingConvention)
    (info : Option Information) (pc : Nat) :
    Outcome CallingConvention × List String :=
  match info with
  | none => (Outcome.panic, [])
  | some inf =>
    if inf.bin.arch = "x86" ∧ inf.bin.bits = 32 then
      (Outcome.ok (CallingConvention.mk "eax" ["ebx", "ecx", "edx", "esi", "edi", "ebp"]), [])
    else
      get_cc backend parseCC pc

/-- R2Api::get_register_value from r2_api.rs: issues `aer reg`, slices
the reply as `val[2..len-1]` and unwraps `u64::from_str_radix(_, 16)`;
an invalid slice or failed parse panics. -/
def get_register_value (backend : Backend) (reg : String) : Outcome Nat × List String :=
  let c := "aer " ++ reg
  match backend c with
  | Except.error e => (Outcome.err e, [c])
  | Except.ok val =>
    match strSlice val 2 (val.length - 1) with
    | none => (Outcome.panic, [c])
    | some sl =>
      match fromStrRadix 16 U64_MAX sl with
      | some v => (Outcome.ok v, [c])
      | none => (Outcome.panic, [c])

/-- R2Api::get_address from r2_api.rs: issues `?v symbol` and parses the
reply exactly as get_register_value does. -/
def get_address (backend : Backend) (symbol : String) : Outcome Nat × List String :=
  let c := "?v " ++ symbol
  match backend c with
  | Except.error e => (Outcome.err e, [c])
  | Except.ok val =>
    match strSlice val 2 (val.length - 1) with
    | none => (Outcome.panic, [c])
    | some sl =>
      match fromStrRadix 16 U64_MAX sl with
      | some v => (Outcome.ok v, [c])
      | none => (Outcome.panic, [c])

/-- R2Api::get_syscall_num from r2_api.rs: issues `asl name`, slices the
reply as `ret[0..len-1]` and unwraps a decimal `parse::<u64>()`. -/
def get_syscall_num (backend : Backend) (sys_str : String) : Outcome Nat × List String :=
  let c := "asl " ++ sys_str
  match backend c with
  | Except.error e => (Outcome.err e, [c])
  | Except.ok ret =>
    match strSlice ret 0 (ret.length - 1) with
    | none => (Outcome.panic, [c])
    | some sl =>
      match fromStrRadix 10 U64_MAX sl with
      | some v => (Outcome.ok v, [c])
      | none => (Outcome.panic, [c])

/-- R2Api::seek from r2_api.rs: issues `s addr` and binds the Result to
`_r`, discarding it; the method returns unit unconditionally. -/
def seek (backend : Backend) (addr : Nat) : Outcome Unit × List String :=
  let c := "s " ++ toString addr
  let _r := backend c
  (Outcome.ok (), [c])

/-- R2Api::set_register_value from r2_api.rs: issues `aer reg=value` and
discards the Result. -/
def set_register_value (backend : Backend) (reg : String) (value : Nat) :
    Outcome Unit × List String :=
  let c := "aer " ++ reg ++ "=" ++ toString value
  let _r := backend c
  (Outcome.ok (), [c])

/-- R2Api::write from r2_api.rs: issues `wx hex_encode(data) @ addr` and
discards the Result. -/
def write (backend : Backend) (addr : Nat) (data : List Nat) :
    Outcome Unit × List String :=
  let c := "wx " ++ String.mk (hex_encode data) ++ " @ " ++ toString addr
  let _r := backend c
  (Outcome.ok (), [c])

/-- Condition under which get_register_value's and get_address's reply
processing succeeds: the slice `val[2..len-1]` is in range and its
content parses as a base-16 u64. -/
def hexU64RespParses (val : List Char) : Bool :=
  match strSlice val 2 (val.length - 1) with
  | none => false
  | some sl => (fromStrRadix 16 U64_MAX sl).isSome

/-- Condition under which get_syscall_num's reply processing succeeds:
the slice `ret[0..len-1]` is in range and parses as a decimal u64. -/
def decU64RespParses (val : List Char) : Bool :=
  match strSlice val 0 (val.length - 1) with
  | none => false
  | some sl => (fromStrRadix 10 U64_MAX sl).isSome

/-- The most-significant-first base-16 value of a digit string (the u64
whose base-16 representation it is, when all characters are hex digits). -/
def hexVal (digits : List Char) : Nat :=
  digits.foldl (fun a c => a * 16 + (charToDigit c 16).getD 0) 0

/-- Kind of a symbolic-execution Value: a literal integer or a named
symbolic expression (spec section 3, Symbolic Value). -/
inductive VKind where
  | concrete (v : Nat)
  | symbolic (name : String)
  deriving DecidableEq

/-- Modelled from the spec: a Symbolic Value is a fixed-width bitvector
that is either a literal integer or a symbolic expression; the Value type
itself lives in value.rs, which is not under src/. -/
structure Value where
  width : Nat
  kind : VKind
  deriving DecidableEq

/-- One recorded symbolic memory write: target address Value, written
Value, byte length. -/
structure MemWrite where
  addr : Value
  val : Value
  len : Nat
  deriving DecidableEq

/-- Modelled from the spec: the Machine State fragment the babyre hook
touches (state.rs is not under src/). `context` is the free-form
string-key-to-ordered-Value-sequence bookkeeping map of spec section 3
(a key never inserted reads as the empty sequence, which is exactly what
the hook's `entry(..).or_insert(vec!())` idiom guarantees before use),
and `mem_writes` is the ordered log of symbolic memory writes the State
has performed. -/
structure State where
  context : String → List Value
  mem_writes : List MemWrite

/-- Modelled from the spec: fresh-symbol allocation, named and given a
width (spec section 3, Symbolic Value lifecycle). -/
def State.symbolic_value (_s : State) (name : String) (width : Nat) : Value :=
  Value.mk width (VKind.symbolic name)

/-- Modelled from the spec: literal Value construction with a given
width. -/
def State.concrete_value (_s : State) (v : Nat) (width : Nat) : Value :=
  Value.mk width (VKind.concrete v)

/-- Modelled from the spec: a memory write of a Value with an explicit
byte length at an address given as a Value (spec section 4.2); recorded
in the State's ordered write log. -/
def State.memory_write_value (s : State) (addr : Value) (v : Value) (len : Nat) : State :=
  State.mk s.context (s.mem_writes ++ [MemWrite.mk addr v len])

/-- scanf_sim from examples/babyre/src/main.rs: reads the current length
of context entry "ints", allocates the 32-bit symbolic Value named
int-length, writes it 4 bytes wide to the address in args[1] (a panic if
fewer than two arguments, hence the bound hypothesis), appends it to
context entry "ints", and returns the concrete Value 1 of width 64. -/
def scanf_sim (state : State) (args : List Value) (h : 1 < args.length) : State × Value :=
  let input_len := (state.context "ints").length
  let new_int := state.symbolic_value ("int" ++ toString input_len) 32
  let state1 := state.memory_write_value (args.get ⟨1, h⟩) new_int 4
  let state2 := State.mk
    (fun k => if k = "ints" then state1.context "ints" ++ [new_int] else state1.context k)
    state1.mem_writes
  (state2, state2.concrete_value 1 64)

/-- C9: Endian.from_string is total, maps exactly "little", "big" and
"mixed" to the corresponding variants, and every other string to
Endian.unknown. -/
theorem endian_from_string_spec :
    Endian.from_string "little" = Endian.little
    ∧ Endian.from_string "big" = Endian.big
    ∧ Endian.from_string "mixed" = Endian.mixed
    ∧ ∀ s : String, s ≠ "little" → s ≠ "big" → s ≠ "mixed" →
        Endian.from_string s = Endian.unknown := by
  refine ⟨by decide, by decide, by decide, ?_⟩
  intro s h1 h2 h3
  simp [Endian.from_string, h1, h2, h3]

/-- Witness for C9 at the concrete strings "Little" and the empty
string, both of which fall through to Endian.unknown. -/
theorem endian_from_string_spec_witness :
    Endian.from_string "Little" = Endian.unknown
    ∧ Endian.from_string "" = Endian.unknown :=
  ⟨endian_from_string_spec.2.2.2 "Little" (by decide) (by decide) (by decide),
   endian_from_string_spec.2.2.2 "" (by decide) (by decide) (by decide)⟩

/-- C2 counterexample: with a backend whose command fails, seek,
set_register_value and write still return plain success and no error is
returned or recorded anywhere in their observable result: the failed
command's Result is discarded, contradicting the claim that these
operations propagate or report a failed command. -/
theorem discarded_backend_errors :
    seek (fun _ => Except.error "io error") 0 = (Outcome.ok (), ["s 0"])
    ∧ set_register_value (fun _ => Except.error "io error") "eax" 5
        = (Outcome.ok (), ["aer eax=5"])
    ∧ write (fun _ => Except.error "io error") 0 [255]
        = (Outcome.ok (), ["wx ff @ 0"]) := by
  decide

/-- C2 amended: seek, set_register_value and write bind the backend
command's Result to a discarded variable and return unit success
unconditionally, for every backend behaviour, so a failed command is
silently swallowed by these operations rather than propagated or
reported; only the R2Result-returning operations propagate channel
errors. -/
theorem seek_set_write_discard_result (backend : Backend) (addr value : Nat)
    (reg : String) (data : List Nat) :
    seek backend addr = (Outcome.ok (), ["s " ++ toString addr])
    ∧ set_register_value backend reg value
        = (Outcome.ok (), ["aer " ++ reg ++ "=" ++ toString value])
    ∧ write backend addr data
        = (Outcome.ok (), ["wx " ++ String.mk (hex_encode data) ++ " @ " ++ toString addr]) :=
  ⟨rfl, rfl, rfl⟩

/-- C6: with the binary info loaded, get_syscall_cc returns the fixed
x86-32 syscall convention (args ebx, ecx, edx, esi, edi, ebp and return
register eax) without issuing any backend command when the architecture
is x86 with 32 bits, and otherwise returns exactly get_cc at the same
address. -/
theorem get_syscall_cc_spec (backend : Backend)
    (parseCC : List Char → Except String CallingConvention)
    (inf : Information) (pc : Nat) :
    (inf.bin.arch = "x86" ∧ inf.bin.bits = 32 →
      get_syscall_cc backend parseCC (some inf) pc
        = (Outcome.ok (CallingConvention.mk "eax"
            ["ebx", "ecx", "edx", "esi", "edi", "ebp"]), []))
    ∧ (¬ (inf.bin.arch = "x86" ∧ inf.bin.bits = 32) →
      get_syscall_cc backend parseCC (some inf) pc = get_cc backend parseCC pc) := by
  constructor
  · intro h
    simp only [get_syscall_cc]
    rw [if_pos h]
  · intro h
    simp only [get_syscall_cc]
    rw [if_neg h]

/-- Witness for C6 at a concrete x86 32-bit binary and a concrete arm
64-bit binary. -/
theorem get_syscall_cc_spec_witness :
    get_syscall_cc (fun _ => Except.error "down") (fun _ => Except.error "bad")
        (some (Information.mk (CoreInfo.mk "f" 0 "m" "fmt")
          (BinInfo.mk "x86" "elf" 32 false "little" "linux" true))) 7
      = (Outcome.ok (CallingConvention.mk "eax"
          ["ebx", "ecx", "edx", "esi", "edi", "ebp"]), [])
    ∧ get_syscall_cc (fun _ => Except.error "down") (fun _ => Except.error "bad")
        (some (Information.mk (CoreInfo.mk "f" 0 "m" "fmt")
          (BinInfo.mk "arm" "elf" 64 false "little" "linux" true))) 7
      = get_cc (fun _ => Except.error "down") (fun _ => Except.error "bad") 7 :=
  ⟨(get_syscall_cc_spec _ _ _ _).1 ⟨rfl, rfl⟩,
   (get_syscall_cc_spec _ _ _ _).2 (by decide)⟩

/-- C10: get_info is caching and idempotent: with the info field
populated it issues no backend command, leaves the cache unchanged and
returns the cached value; and any successful call leaves a cache from
which a second call returns the same value while issuing no command. -/
theorem get_info_caching (backend : Backend)
    (parseInfo : List Char → Except String (Option Information)) :
    (∀ i : Information,
        get_info backend parseInfo (some i) = (Outcome.ok i, some i, []))
    ∧ (∀ (cached cached2 : Option Information) (v : Information) (cmds : List String),
        get_info backend parseInfo cached = (Outcome.ok v, cached2, cmds) →
        get_info backend parseInfo cached2 = (Outcome.ok v, cached2, [])) := by
  constructor
  · intro i
    rfl
  · intro cached cached2 v cmds h
    cases cached with
    | some i =>
      have h0 : (Outcome.ok i, some i, ([] : List String))
          = (Outcome.ok v, cached2, cmds) := h
      simp only [Prod.mk.injEq, Outcome.ok.injEq] at h0
      obtain ⟨hiv, hc, _⟩ := h0
      subst hiv
      subst hc
      rfl
    | none =>
      cases hb : backend "ij" with
      | error e =>
        simp only [get_info, hb] at h
        exact Outcome.noConfusion (congrArg Prod.fst h)
      | ok json =>
        cases hp : parseInfo json with
        | error e =>
          simp only [get_info, hb, hp] at h
          exact Outcome.noConfusion (congrArg Prod.fst h)
        | ok oi =>
          cases oi with
          | none =>
            simp only [get_info, hb, hp] at h
            exact Outcome.noConfusion (congrArg Prod.fst h)
          | some i =>
            simp only [get_info, hb, hp, Prod.mk.injEq, Outcome.ok.injEq] at h
            obtain ⟨hiv, hc, _⟩ := h
            subst hiv
            subst hc
            rfl

/-- Witness for C10: a successful cold call populates the cache with a
concrete Information value, and the follow-up call returns the same
value, keeps the cache, and issues no command. -/
theorem get_info_caching_witness :
    get_info (fun _ => Except.ok [])
      (fun _ => Except.ok (some (Information.mk (CoreInfo.mk "b" 1 "r" "elf")
        (BinInfo.mk "x86" "elf" 64 true "little" "linux" true))))
      (some (Information.mk (CoreInfo.mk "b" 1 "r" "elf")
        (BinInfo.mk "x86" "elf" 64 true "little" "linux" true)))
      = (Outcome.ok (Information.mk (CoreInfo.mk "b" 1 "r" "elf")
          (BinInfo.mk "x86" "elf" 64 true "little" "linux" true)),
         some (Information.mk (CoreInfo.mk "b" 1 "r" "elf")
          (BinInfo.mk "x86" "elf" 64 true "little" "linux" true)), []) :=
  (get_info_caching _ _).2 none
    (some (Information.mk (CoreInfo.mk "b" 1 "r" "elf")
      (BinInfo.mk "x86" "elf" 64 true "little" "linux" true)))
    (Information.mk (CoreInfo.mk "b" 1 "r" "elf")
      (BinInfo.mk "x86" "elf" 64 true "little" "linux" true))
    ["ij"] rfl

/-- C5: each scanf_sim invocation appends exactly one fresh 32-bit
symbolic Value, named after the number of previously recorded values, to
context entry "ints", records a 4-byte-wide write of that value at the
address given by the hook's second argument, leaves every other context
key unchanged, and returns the concrete Value 1 of width 64. -/
theorem scanf_sim_spec (s : State) (args : List Value) (h : 1 < args.length) :
    (scanf_sim s args h).1.context "ints"
      = s.context "ints"
        ++ [Value.mk 32 (VKind.symbolic ("int" ++ toString (s.context "ints").length))]
    ∧ (∀ k : String, k ≠ "ints" → (scanf_sim s args h).1.context k = s.context k)
    ∧ (scanf_sim s args h).1.mem_writes
      = s.mem_writes
        ++ [MemWrite.mk (args.get ⟨1, h⟩)
             (Value.mk 32 (VKind.symbolic ("int" ++ toString (s.context "ints").length))) 4]
    ∧ (scanf_sim s args h).2 = Value.mk 64 (VKind.concrete 1) := by
  refine ⟨?_, ?_, rfl, rfl⟩
  · simp [scanf_sim, State.memory_write_value, State.symbolic_value]
  · intro k hk
    simp [scanf_sim, State.memory_write_value, State.symbolic_value, hk]

/-- Witness for C5 at a concrete empty state and two concrete pointer
arguments. -/
theorem scanf_sim_spec_witness :
    (scanf_sim (State.mk (fun _ => []) [])
        [Value.mk 64 (VKind.concrete 0), Value.mk 64 (VKind.concrete 4096)]
        (by decide)).1.context "ints"
      = [Value.mk 32 (VKind.symbolic "int0")]
    ∧ (scanf_sim (State.mk (fun _ => []) [])
        [Value.mk 64 (VKind.concrete 0), Value.mk 64 (VKind.concrete 4096)]
        (by decide)).1.context "other" = []
    ∧ (scanf_sim (State.mk (fun _ => []) [])
        [Value.mk 64 (VKind.concrete 0), Value.mk 64 (VKind.concrete 4096)]
        (by decide)).1.mem_writes
      = [MemWrite.mk (Value.mk 64 (VKind.concrete 4096))
          (Value.mk 32 (VKind.symbolic "int0")) 4]
    ∧ (scanf_sim (State.mk (fun _ => []) [])
        [Value.mk 64 (VKind.concrete 0), Value.mk 64 (VKind.concrete 4096)]
        (by decide)).2 = Value.mk 64 (VKind.concrete 1) := by
  have hw := scanf_sim_spec (State.mk (fun _ => []) [])
    [Value.mk 64 (VKind.concrete 0), Value.mk 64 (VKind.concrete 4096)] (by decide)
  exact ⟨hw.1.trans (by decide), hw.2.1 "other" (by decide),
    hw.2.2.1.trans (by decide), hw.2.2.2⟩

/-- Parsing the two lowercase hex digits that hex_encode emits for a
byte recovers exactly that byte. -/
theorem fromStrRadix_digitChar_pair :
    ∀ b : Nat, b < 256 →
      fromStrRadix 16 U8_MAX [Nat.digitChar (b / 16), Nat.digitChar (b % 16)] = some b := by
  decide

/-- C3: hex_encode renders each byte as exactly two lowercase hex
digits, so the encoding of a byte sequence has twice its length and
hex_decode recovers the sequence exactly. -/
theorem hex_round_trip (data : List Nat) (h : ∀ b ∈ data, b < 256) :
    hex_decode (hex_encode data) = some data
    ∧ (hex_encode data).length = 2 * data.length := by
  induction data with
  | nil => exact ⟨rfl, rfl⟩
  | cons b rest ih =>
    have hb : b < 256 := h b (List.mem_cons_self b rest)
    have hrest := ih (fun x hx => h x (List.mem_cons_of_mem b hx))
    constructor
    · simp only [hex_encode, hex_decode, fromStrRadix_digitChar_pair b hb, hrest.1]
    · simp only [hex_encode, List.length_cons, hrest.2]
      omega

/-- Witness for C3 at the concrete byte sequence [0, 171, 255]. -/
theorem hex_round_trip_witness :
    hex_decode (hex_encode [0, 171, 255]) = some [0, 171, 255]
    ∧ (hex_encode [0, 171, 255]).length = 6 :=
  ⟨(hex_round_trip [0, 171, 255] (by decide)).1,
   (hex_round_trip [0, 171, 255] (by decide)).2.trans (by decide)⟩

/-- C8 counterexample: the pair of characters plus-sign and f is not a
pair of hexadecimal digits (the plus sign is not a hex digit), yet
hex_decode does not panic on it: u8::from_str_radix accepts an optional
leading plus sign, so hex_decode of that two-character input returns the
byte 15, refuting totality precisely on hexadecimal digit pairs. -/
theorem hex_decode_plus_pair :
    hex_decode ['+', 'f'] = some [15] ∧ charToDigit '+' 16 = none := by
  decide

/-- Two-step list induction matching the recursion of hex_decode and
pairsOf. -/
theorem pairRec {P : List Char → Prop} (h0 : P []) (h1 : ∀ c, P [c])
    (h2 : ∀ c1 c2 r, P r → P (c1 :: c2 :: r)) : ∀ s, P s
  | [] => h0
  | [c] => h1 c
  | c1 :: c2 :: r => h2 c1 c2 r (pairRec h0 h1 h2 r)

/-- C8 amended: hex_decode consumes exactly the two-character pairs at
indices 2i for i below len/2 (a trailing unpaired character on
odd-length input is silently ignored), and it returns a value rather
than panicking precisely when every consumed pair is accepted by u8
base-16 parsing, which holds for pairs of hexadecimal digits (either
case) and also for a plus sign followed by one hexadecimal digit. -/
theorem hex_decode_totality (s : List Char) :
    hex_decode s = hex_decode (s.take (2 * (s.length / 2)))
    ∧ ((hex_decode s).isSome ↔ ∀ p ∈ pairsOf s, (fromStrRadix 16 U8_MAX p).isSome) := by
  induction s using pairRec with
  | h0 => exact ⟨rfl, by simp [hex_decode, pairsOf]⟩
  | h1 c =>
    refine ⟨?_, by simp [hex_decode, pairsOf]⟩
    have h10 : 2 * ([c].length / 2) = 0 := by simp
    rw [h10, List.take_zero]
    rfl
  | h2 c1 c2 r ih =>
    have hlen : 2 * ((c1 :: c2 :: r).length / 2) = (2 * (r.length / 2) + 1) + 1 := by
      simp only [List.length_cons]
      omega
    constructor
    · rw [hlen, List.take_succ_cons, List.take_succ_cons]
      simp only [hex_decode]
      rw [← ih.1]
    · simp only [hex_decode, pairsOf, List.mem_cons, forall_eq_or_imp]
      cases hf : fromStrRadix 16 U8_MAX [c1, c2] with
      | none => simp [hf]
      | some v =>
        cases hd : hex_decode r with
        | none =>
          have := ih.2
          rw [hd] at this
          simp only [Option.isSome_none, Bool.false_eq_true, false_iff] at this
          simp [hf, this]
        | some vs =>
          have hall : ∀ p ∈ pairsOf r, (fromStrRadix 16 U8_MAX p).isSome = true := by
            have hih := ih.2
            rw [hd] at hih
            exact hih.mp rfl
          exact iff_of_true (by simp [hf, hd]) ⟨by simp [hf], hall⟩

/-- Base-16 digit fold starting from a given accumulator. -/
def hexValFrom (a : Nat) (digits : List Char) : Nat :=
  digits.foldl (fun x c => x * 16 + (charToDigit c 16).getD 0) a

/-- The digit fold never decreases below its accumulator. -/
theorem hexValFrom_le : ∀ (digits : List Char) (a : Nat), a ≤ hexValFrom a digits := by
  intro digits
  induction digits with
  | nil => intro a; exact Nat.le_refl a
  | cons c r ih =>
    intro a
    have h1 : a ≤ a * 16 + (charToDigit c 16).getD 0 := by omega
    exact Nat.le_trans h1 (ih (a * 16 + (charToDigit c 16).getD 0))

/-- The checked digit fold of from_str_radix succeeds and computes the
digit value whenever every character is a base-16 digit and the final
value fits the bound. -/
theorem fromStrRadix_foldl (M : Nat) :
    ∀ (digits : List Char) (a : Nat), (∀ c ∈ digits, (charToDigit c 16).isSome) →
      hexValFrom a digits ≤ M →
      digits.foldl (fun acc c =>
        match acc, charToDigit c 16 with
        | some x, some d => if x * 16 + d ≤ M then some (x * 16 + d) else none
        | _, _ => none) (some a) = some (hexValFrom a digits) := by
  intro digits
  induction digits with
  | nil =>
    intro a _ _
    rfl
  | cons c r ih =>
    intro a hdig hle
    obtain ⟨d, hd⟩ := Option.isSome_iff_exists.mp (hdig c (List.mem_cons_self c r))
    have hstep : hexValFrom a (c :: r) = hexValFrom (a * 16 + d) r := by
      simp [hexValFrom, hd]
    have hbound : a * 16 + d ≤ M := by
      have h1 : a * 16 + d ≤ hexValFrom (a * 16 + d) r := hexValFrom_le r (a * 16 + d)
      rw [hstep] at hle
      omega
    simp only [List.foldl_cons, hd, hbound, if_pos]
    rw [hstep]
    exact ih (a * 16 + d) (fun x hx => hdig x (List.mem_cons_of_mem c hx)) (by rw [← hstep]; exact hle)

/-- from_str_radix in base 16 on a nonempty all-hex-digit string whose
value fits the bound returns exactly that value. -/
theorem fromStrRadix_sound (M : Nat) (digits : List Char) (hne : digits ≠ [])
    (hdig : ∀ c ∈ digits, (charToDigit c 16).isSome) (hle : hexVal digits ≤ M) :
    fromStrRadix 16 M digits = some (hexVal digits) := by
  cases digits with
  | nil => exact absurd rfl hne
  | cons hd tl =>
    have hplus : hd ≠ '+' := by
      intro heq
      have h1 := hdig hd (List.mem_cons_self hd tl)
      rw [heq] at h1
      have h2 : charToDigit '+' 16 = none := by decide
      rw [h2] at h1
      exact absurd h1 (by decide)
    have hhead : (hd :: tl).headD ' ' = hd := rfl
    simp only [fromStrRadix, hhead, hplus, if_neg, List.isEmpty_cons,
      Bool.false_eq_true, ite_false]
    exact fromStrRadix_foldl M (hd :: tl) 0 hdig hle

/-- C7: a backend reply of the form 0x, then hexadecimal digits whose
value fits in a u64, then one trailing character, makes
get_register_value and get_address strip the two-character 0x prefix and
the single trailing character and return the u64 whose base-16
representation is those digits. -/
theorem hex_response_parsing (backend : Backend) (reg symbol : String)
    (digits : List Char) (c : Char) (hne : digits ≠ [])
    (hdig : ∀ d ∈ digits, (charToDigit d 16).isSome)
    (hle : hexVal digits ≤ U64_MAX) :
    (backend ("aer " ++ reg) = Except.ok ('0' :: 'x' :: (digits ++ [c])) →
      get_register_value backend reg = (Outcome.ok (hexVal digits), ["aer " ++ reg]))
    ∧ (backend ("?v " ++ symbol) = Except.ok ('0' :: 'x' :: (digits ++ [c])) →
      get_address backend symbol = (Outcome.ok (hexVal digits), ["?v " ++ symbol])) := by
  have hsl : strSlice ('0' :: 'x' :: (digits ++ [c])) 2
      (('0' :: 'x' :: (digits ++ [c])).length - 1) = some digits := by
    have hlen : ('0' :: 'x' :: (digits ++ [c])).length = digits.length + 3 := by
      simp [List.length_append]
    rw [hlen]
    have hcond : 2 ≤ digits.length + 3 - 1 ∧ digits.length + 3 - 1 ≤ digits.length + 3 := by
      omega
    simp only [strSlice, hlen, if_pos hcond]
    have hdrop : (('0' :: 'x' :: (digits ++ [c])).drop 2) = digits ++ [c] := rfl
    rw [hdrop]
    have harith : digits.length + 3 - 1 - 2 = digits.length := by omega
    rw [harith]
    exact congrArg some (List.take_left digits [c])
  constructor
  · intro hb
    simp only [get_register_value, hb, hsl,
      fromStrRadix_sound U64_MAX digits hne hdig hle]
  · intro hb
    simp only [get_address, hb, hsl,
      fromStrRadix_sound U64_MAX digits hne hdig hle]

/-- Witness for C7 at the concrete reply 0x2a with a trailing newline:
both accessors return 42. -/
theorem hex_response_parsing_witness :
    get_register_value (fun _ => Except.ok ['0', 'x', '2', 'a', '\n']) "rax"
      = (Outcome.ok 42, ["aer rax"])
    ∧ get_address (fun _ => Except.ok ['0', 'x', '2', 'a', '\n']) "main"
      = (Outcome.ok 42, ["?v main"]) :=
  ⟨((hex_response_parsing (fun _ => Except.ok ['0', 'x', '2', 'a', '\n']) "rax" "main"
      ['2', 'a'] '\n' (by decide) (by decide) (by decide)).1 rfl).trans (by decide),
   ((hex_response_parsing (fun _ => Except.ok ['0', 'x', '2', 'a', '\n']) "rax" "main"
      ['2', 'a'] '\n' (by decide) (by decide) (by decide)).2 rfl).trans (by decide)⟩

/-- C1 counterexample: a backend reply that fails to parse makes the
operation panic instead of returning Err: get_register_value on the
reply zzzz unwraps a failed from_str_radix and panics, and get_info on a
reply whose deserialization fails unwraps the serde error and panics,
refuting the claim that these operations surface a malformed response as
an error result. -/
theorem get_register_value_malformed_panics :
    get_register_value (fun _ => Except.ok ['z', 'z', 'z', 'z']) "eax"
      = (Outcome.panic, ["aer eax"])
    ∧ get_info (fun _ => Except.ok ['n', 'o', 't', ' ', 'j'])
        (fun _ => Except.error "expected value at line 1") none
      = (Outcome.panic, none, ["ij"]) := by
  decide

/-- C1 amended: a deserialization failure is surfaced as Err only by the
serde-plus-r2_result accessors (r2_result collapses any parse error into
the Err value Deserialization error); get_info, get_register_value,
get_syscall_num and get_address instead unwrap their parses and panic on
a malformed response rather than returning Err. -/
theorem parse_failure_surfacing :
    (∀ (α : Type) (e : String),
      r2_result (Except.error e : Except String α) = Except.error "Deserialization error")
    ∧ (∀ (backend : Backend) (parseInfo : List Char → Except String (Option Information))
        (json : List Char) (e : String),
        backend "ij" = Except.ok json → parseInfo json = Except.error e →
        get_info backend parseInfo none = (Outcome.panic, none, ["ij"]))
    ∧ (∀ (backend : Backend) (reg : String) (val : List Char),
        backend ("aer " ++ reg) = Except.ok val → hexU64RespParses val = false →
        get_register_value backend reg = (Outcome.panic, ["aer " ++ reg]))
    ∧ (∀ (backend : Backend) (sys_str : String) (val : List Char),
        backend ("asl " ++ sys_str) = Except.ok val → decU64RespParses val = false →
        get_syscall_num backend sys_str = (Outcome.panic, ["asl " ++ sys_str]))
    ∧ (∀ (backend : Backend) (symbol : String) (val : List Char),
        backend ("?v " ++ symbol) = Except.ok val → hexU64RespParses val = false →
        get_address backend symbol = (Outcome.panic, ["?v " ++ symbol])) := by
  refine ⟨fun α e => rfl, ?_, ?_, ?_, ?_⟩
  · intro backend parseInfo json e hb hp
    simp only [get_info, hb, hp]
  · intro backend reg val hb hbad
    simp only [get_register_value, hb]
    simp only [hexU64RespParses] at hbad
    cases hs : strSlice val 2 (val.length - 1) with
    | none => simp
    | some sl =>
      rw [hs] at hbad
      have hbad2 : (fromStrRadix 16 U64_MAX sl).isSome = false := hbad
      have hnone : fromStrRadix 16 U64_MAX sl = none :=
        Option.not_isSome_iff_eq_none.mp (by simp [hbad2])
      simp [hnone]
  · intro backend sys_str val hb hbad
    simp only [get_syscall_num, hb]
    simp only [decU64RespParses] at hbad
    cases hs : strSlice val 0 (val.length - 1) with
    | none => simp
    | some sl =>
      rw [hs] at hbad
      have hbad2 : (fromStrRadix 10 U64_MAX sl).isSome = false := hbad
      have hnone : fromStrRadix 10 U64_MAX sl = none :=
        Option.not_isSome_iff_eq_none.mp (by simp [hbad2])
      simp [hnone]
  · intro backend symbol val hb hbad
    simp only [get_address, hb]
    simp only [hexU64RespParses] at hbad
    cases hs : strSlice val 2 (val.length - 1) with
    | none => simp
    | some sl =>
      rw [hs] at hbad
      have hbad2 : (fromStrRadix 16 U64_MAX sl).isSome = false := hbad
      have hnone : fromStrRadix 16 U64_MAX sl = none :=
        Option.not_isSome_iff_eq_none.mp (by simp [hbad2])
      simp [hnone]

/-- Witness for C1 at concrete malformed replies for each of the five
conjuncts. -/
theorem parse_failure_surfacing_witness :
    r2_result (Except.error "bad json" : Except String Nat)
      = Except.error "Deserialization error"
    ∧ get_info (fun _ => Except.ok ['x']) (fun _ => Except.error "eof") none
      = (Outcome.panic, none, ["ij"])
    ∧ get_register_value (fun _ => Except.ok ['q', 'q', 'q']) "rbx"
      = (Outcome.panic, ["aer rbx"])
    ∧ get_syscall_num (fun _ => Except.ok ['a', 'b', 'c']) "exit"
      = (Outcome.panic, ["asl exit"])
    ∧ get_address (fun _ => Except.ok ['w', 'w', 'w']) "entry"
      = (Outcome.panic, ["?v entry"]) :=
  ⟨parse_failure_surfacing.1 Nat "bad json",
   parse_failure_surfacing.2.1 (fun _ => Except.ok ['x']) (fun _ => Except.error "eof")
     ['x'] "eof" rfl rfl,
   parse_failure_surfacing.2.2.1 (fun _ => Except.ok ['q', 'q', 'q']) "rbx"
     ['q', 'q', 'q'] rfl (by decide),
   parse_failure_surfacing.2.2.2.1 (fun _ => Except.ok ['a', 'b', 'c']) "exit"
     ['a', 'b', 'c'] rfl (by decide),
   parse_failure_surfacing.2.2.2.2 (fun _ => Except.ok ['w', 'w', 'w']) "entry"
     ['w', 'w', 'w'] rfl (by decide)⟩

/-- Witness for C2 at a concrete succeeding backend. -/
theorem seek_set_write_discard_result_witness :
    seek (fun _ => Except.ok []) 1 = (Outcome.ok (), ["s 1"])
    ∧ write (fun _ => Except.ok []) 2 [0] = (Outcome.ok (), ["wx 00 @ 2"]) :=
  ⟨((seek_set_write_discard_result (fun _ => Except.ok []) 1 0 "pc" []).1).trans (by decide),
   ((seek_set_write_discard_result (fun _ => Except.ok []) 2 0 "pc" [0]).2.2).trans (by decide)⟩

/-- Witness for C8 at the concrete odd-length input abc: the trailing c
is ignored and decoding succeeds. -/
theorem hex_decode_totality_witness :
    hex_decode ['a', 'b', 'c'] = hex_decode ['a', 'b']
    ∧ (hex_decode ['a', 'b', 'c']).isSome = true :=
  ⟨(hex_decode_totality ['a', 'b', 'c']).1.trans (by decide),
   (hex_decode_totality ['a', 'b', 'c']).2.mpr (by decide)⟩
